import Mathlib

/-!
Verification of the OneUSG automatic clock login/MFA workflow.

This file embeds the core algorithms of the repository (clock_manager.py,
browser_utils.py, duo_auth.py, selector_defs.py) as executable Lean
definitions and proves the testable properties stated in the specification.

Browser-driver primitives (element lookup, click, frame switch) are modelled
as abstract outcome traces, matching the specification's stance that the
automation driver is an external capability.  Machine-level details that the
claims do not touch (logging, artifact dumping) are omitted.
-/

namespace OneUSG

/-! ### Decimal parsing and printing (embedding of Python `int(...)` / `str(...)`)

`clock_manager.get_duo_passcode` persists the HOTP counter with
`f.write(str(counter + 1))` and reads it back with `int(f.read().strip())`.
We model Python's `str.strip` and `int` on character lists. -/

/-- Python `str.strip()`: drop whitespace from both ends of a character list. -/
def stripChars (l : List Char) : List Char :=
  ((l.dropWhile Char.isWhitespace).reverse.dropWhile Char.isWhitespace).reverse

/-- Fold a digit list (most significant first) into the number it denotes. -/
def digitsToNat (l : List Char) : Nat :=
  l.foldl (fun n c => n * 10 + (c.toNat - 48)) 0

/-- Parse a non-empty all-digit character list; `none` otherwise. -/
def parseDigits (l : List Char) : Option Nat :=
  if l ≠ [] ∧ l.all Char.isDigit then some (digitsToNat l) else none

/-- Embedding of Python `int(s.strip())` returning `none` where Python raises
`ValueError` (the caller catches that and falls back to counter 0). -/
def pyInt (s : String) : Option Int :=
  match stripChars s.data with
  | [] => none
  | c :: rest =>
    if c = '-' then (parseDigits rest).map (fun n => -(n : Int))
    else if c = '+' then (parseDigits rest).map (fun n => (n : Int))
    else (parseDigits (c :: rest)).map (fun n => (n : Int))

/-- Digit-list worker: `fuel` bounds the recursion depth (structural recursion
so that concrete values compute by `rfl`). -/
def natDigitsAux : Nat → Nat → List Char
  | 0, _ => []
  | fuel + 1, n =>
    if n < 10 then [Nat.digitChar n]
    else natDigitsAux fuel (n / 10) ++ [Nat.digitChar (n % 10)]

/-- Minimal decimal digit list of a natural number, most significant first. -/
def natDigits (n : Nat) : List Char := natDigitsAux (n + 1) n

/-- Embedding of Python `str` on integers (decimal, `-` sign for negatives). -/
def intStr (i : Int) : String :=
  match i with
  | Int.ofNat m => ⟨natDigits m⟩
  | Int.negSucc m => ⟨'-' :: natDigits (m + 1)⟩

/-! ### HOTP counter file (clock_manager.get_duo_passcode, lines 133-188)

The HOTP branch reads the persisted counter, generates the code at that
counter, and writes back counter+1.  `pyotp.HOTP(...).at` is an external
library call (out of scope per the spec), abstracted as `hotp : Int → String`. -/

/-- On-disk state of the HOTP counter file. -/
inductive CounterFile
  | missing
  | unreadable
  | stored (contents : String)
deriving DecidableEq

/-- Lines 162-170: read the counter; any failure (missing file, read error,
unparsable contents) silently yields 0. -/
def readCounter : CounterFile → Int
  | CounterFile.missing => 0
  | CounterFile.unreadable => 0
  | CounterFile.stored s => (pyInt s).getD 0

/-- The HOTP branch of `get_duo_passcode` (lines 156-188, and identically the
otpauth-URI HOTP branch at lines 133-151): read counter, generate code at that
counter, write back `str(counter + 1)`. -/
def get_duo_passcode (hotp : Int → String) (fs : CounterFile) : String × CounterFile :=
  let counter := readCounter fs
  (hotp counter, CounterFile.stored (intStr (counter + 1)))

/-- `K` successive calls to `get_duo_passcode` with no external interference:
the issued codes in order, and the final on-disk state. -/
def get_duo_passcode_calls (hotp : Int → String) (fs : CounterFile) :
    Nat → List String × CounterFile
  | 0 => ([], fs)
  | Nat.succ k =>
    let r := get_duo_passcode hotp fs
    let rest := get_duo_passcode_calls hotp r.2 k
    (r.1 :: rest.1, rest.2)

/-! ### Element locator (browser_utils.find_first, lines 27-40; the identical
clock_manager.find_first, lines 395-408)

Each candidate lookup either locates an element within the timeout (the driver
also reports whether it is displayed and enabled) or raises, in which case the
error is recorded and the next candidate is tried. -/

/-- Driver outcome for one `(by, value)` candidate. -/
inductive Lookup
  | found (displayed enabled : Bool)
  | raised (msg : String)
deriving DecidableEq

/-- The message of the generic `TimeoutException` raised when no candidate
succeeded and no lookup error was recorded. -/
def genericTimeoutMsg : String := "Timed out finding element"

/-- Whether a candidate outcome makes `find_first` return that candidate. -/
def lookupSucceeds (clickable : Bool) : Lookup → Bool
  | Lookup.found d e => !clickable || (d && e)
  | Lookup.raised _ => false

/-- The loop of `find_first`: `i` is the index of the current candidate,
`lastError` the last recorded lookup error. -/
def find_first_go (clickable : Bool) :
    List Lookup → Nat → Option String → Except String Nat
  | [], _, lastError => Except.error (lastError.getD genericTimeoutMsg)
  | o :: rest, i, lastError =>
    match o with
    | Lookup.found d e =>
      if !clickable || (d && e) then Except.ok i
      else find_first_go clickable rest (i + 1) lastError
    | Lookup.raised msg => find_first_go clickable rest (i + 1) (some msg)

/-- `find_first(locators, timeout, clickable)`: returns the index of the first
candidate that succeeds, or the raised error message. -/
def find_first (locators : List Lookup) (clickable : Bool) : Except String Nat :=
  find_first_go clickable locators 0 none

/-- The last recorded lookup error over a whole candidate list. -/
def lastRaisedMsg (l : List Lookup) : Option String :=
  l.foldl (fun acc o => match o with | Lookup.raised m => some m | _ => acc) none

/-- An element that was located within the timeout but is not
displayed-and-enabled (the silently skipped case under `clickable`). -/
def isFoundNotInteractable : Lookup → Bool
  | Lookup.found d e => !(d && e)
  | Lookup.raised _ => false

/-! ### Device-trust prompt (clock_manager.handle_duo_device_trust_prompt,
lines 733-777; duo_auth.py lines 64-75 iterates
DEVICE_TRUST_NO_SELECTORS ++ DEVICE_TRUST_YES_SELECTORS, same order)

Each candidate is summarized by a Bool: whether the clickable-wait found the
button and `safe_click` succeeded. -/

/-- One candidate loop: returns the index of the first clicked candidate (if
any) and the ordered trace of attempted candidates, tagged with `label`
(`true` = decline/'No' candidate, `false` = accept/'Yes' candidate). -/
def tryClickLoop (label : Bool) : List Bool → Nat → Option Nat × List (Bool × Nat)
  | [], _ => (none, [])
  | b :: rest, start =>
    if b then (some start, [(label, start)])
    else
      let r := tryClickLoop label rest (start + 1)
      (r.1, (label, start) :: r.2)

/-- `handle_duo_device_trust_prompt`: if the page shows "Is this your device?",
try every 'No' candidate in order, then fall back to the 'Yes' candidates.
Result: the clicked control (`some (isNo, index)`) and the attempt trace; the
Python function returns True exactly when the first component is `some _`. -/
def handle_duo_device_trust_prompt (hasPrompt : Bool) (no yes : List Bool) :
    Option (Bool × Nat) × List (Bool × Nat) :=
  if hasPrompt = false then (none, [])
  else
    match tryClickLoop true no 0 with
    | (some i, t) => (some (true, i), t)
    | (none, tNo) =>
      match tryClickLoop false yes 0 with
      | (some j, tYes) => (some (false, j), tNo ++ tYes)
      | (none, tYes) => (none, tNo ++ tYes)

/-! ### Value injection (clock_manager._set_input_value, lines 299-364)

click-to-focus, select-all-and-delete clear, native keystrokes, read back the
field, and fall back to the framework-aware JS setter when the trimmed readback
does not match the trimmed intended value.  `keysStick` models whether the
front-end framework lets the native keystrokes take effect (the spec's
"frameworks that intercept direct value writes"); the clearing combinations and
the JS `execute_script` setter are driver primitives assumed effective. -/

/-- Embedding of Python `str.strip()` on strings. -/
def pyStrip (s : String) : String := ⟨stripChars s.data⟩

structure Field where
  value : String
deriving DecidableEq

def set_input_value (keysStick : Bool) (f : Field) (v : String) : Field :=
  -- el.click(): no effect on the value
  let cleared : Field := { f with value := "" }
  -- el.send_keys(value): appends to the cleared field iff the framework
  -- accepts native keystrokes
  let typed : Field := if keysStick then { cleared with value := v } else cleared
  -- readback and trimmed comparison; on mismatch the JS setter assigns `v`
  if pyStrip typed.value = pyStrip v then typed
  else { typed with value := v }

/-! ### MFA negotiation loop (clock_manager.loginGT, lines 517-571)

Per tick: (a) fatal idpproxy-400 check, (b) success check `isOnClockPage`,
(c) `try_duo_other_options()` handlers, (d) stuck-URL tracking, (e) 2s sleep.
The external world is a trace indexed by the iteration counter: `fatal i`
(idpproxy 400 page present), `onClock i` (clock page detected), `url i`
(the browser URL read on tick `i`).  Elapsed time counts the tick sleeps;
`MAX_STUCK_ITERATIONS = 10` and the 2-second tick are the source constants. -/

structure LoopState where
  elapsed : Nat
  iteration : Nat
  lastUrl : String
  stuckCount : Nat
  handlers : Nat
deriving DecidableEq

inductive LoopExit
  | authenticated
  | restartRequested
  | stuckFailure
  | duoTimeout
deriving DecidableEq

structure LoopResult where
  exit : LoopExit
  elapsed : Nat
  iteration : Nat
  handlers : Nat
deriving DecidableEq

def loginLoopAux (fatal onClock : Nat → Bool) (url : Nat → String) (timeout : Nat) :
    Nat → LoopState → LoopResult
  | 0, s => ⟨LoopExit.duoTimeout, s.elapsed, s.iteration, s.handlers⟩
  | fuel + 1, s =>
    if s.elapsed < timeout then
      let i := s.iteration + 1
      if fatal i then ⟨LoopExit.restartRequested, s.elapsed, i, s.handlers⟩
      else if onClock i then ⟨LoopExit.authenticated, s.elapsed, i, s.handlers⟩
      else
        let h := s.handlers + 1
        let cur := url i
        if cur = s.lastUrl then
          if 10 ≤ s.stuckCount + 1 then ⟨LoopExit.stuckFailure, s.elapsed, i, h⟩
          else loginLoopAux fatal onClock url timeout fuel
            ⟨s.elapsed + 2, i, s.lastUrl, s.stuckCount + 1, h⟩
        else loginLoopAux fatal onClock url timeout fuel
          ⟨s.elapsed + 2, i, cur, 0, h⟩
    else ⟨LoopExit.duoTimeout, s.elapsed, s.iteration, s.handlers⟩

/-- The loop as entered by `loginGT`: `last_url = ""`, `stuck_count = 0`.
The fuel `timeout + 1` is never exhausted since every sleep adds 2 seconds. -/
def loginLoop (fatal onClock : Nat → Bool) (url : Nat → String) (timeout : Nat) :
    LoopResult :=
  loginLoopAux fatal onClock url timeout (timeout + 1) ⟨0, 0, "", 0, 0⟩

/-! ### Frame probing (clock_manager.try_duo_other_options, lines 839-881;
duo_auth.try_duo_other_options, lines 146-177)

The iframe loop: each frame whose `src` matches the Duo heuristic is entered
with `switch_to.frame`, probed, and the `finally` block always runs
`switch_to.default_content()` before the next iteration or before returning. -/

inductive DriverCtx
  | top
  | inFrame (i : Nat)
deriving DecidableEq

/-- What happened while processing one frame: the heuristic did not match (no
switch), an exception was raised before the switch (`get_attribute` or
`switch_to.frame` failing), the inner probe acted (function returns True),
the inner probe did nothing, or something raised after the switch. -/
inductive FrameOutcome
  | skip
  | raisedBeforeSwitch
  | acted
  | noAction
  | raisedInFrame
deriving DecidableEq

def switchToFrame (i : Nat) (_ : DriverCtx) : DriverCtx := DriverCtx.inFrame i

def switchToDefault (_ : DriverCtx) : DriverCtx := DriverCtx.top

/-- The `try` part of one loop iteration: result is `Except Unit (Option Unit)`
(`error` = an exception escaped, `ok (some _)` = `return True` was reached,
`ok none` = fall through to the next frame), together with the driver context
after the body ran. -/
def frameTryBody (i : Nat) (o : FrameOutcome) (ctx : DriverCtx) :
    Except Unit (Option Unit) × DriverCtx :=
  match o with
  | FrameOutcome.skip => (Except.ok none, ctx)
  | FrameOutcome.raisedBeforeSwitch => (Except.error (), ctx)
  | FrameOutcome.acted => (Except.ok (some ()), switchToFrame i ctx)
  | FrameOutcome.noAction => (Except.ok none, switchToFrame i ctx)
  | FrameOutcome.raisedInFrame => (Except.error (), switchToFrame i ctx)

/-- One full iteration: the `try` body followed by the `finally` clause, which
switches back to the default content whatever the body did. -/
def frameIter (i : Nat) (o : FrameOutcome) (ctx : DriverCtx) :
    Except Unit (Option Unit) × DriverCtx :=
  let r := frameTryBody i o ctx
  (r.1, switchToDefault r.2)

/-- The frame loop of `try_duo_other_options`.  An escaped exception is caught
by the function's outermost handler, which returns False; reaching the end of
the loop returns False; an inner success returns True. -/
def probeFrames : List FrameOutcome → Nat → DriverCtx → Bool × DriverCtx
  | [], _, ctx => (false, ctx)
  | o :: rest, i, ctx =>
    match frameIter i o ctx with
    | (Except.error _, ctx2) => (false, ctx2)
    | (Except.ok (some _), ctx2) => (true, ctx2)
    | (Except.ok none, ctx2) => probeFrames rest (i + 1) ctx2

/-! ### Top-level retry policy (clock_manager.main, lines 1420-1440)

`RESTART_REQUESTED` is set in exactly two places inside `loginGT`: the
idpproxy HTTP 400 detection (lines 538-540) and the failed direct-navigation
fallback after authentication (lines 622-625).  `main` retries the whole login
flow once, with a fresh cookie-less browser, when `loginGT` returned False with
the flag set on the first attempt. -/

/-- How one run of `loginGT` (one `main` loop attempt) can end. -/
inductive LoginOutcome
  | success
  | fatalProxyError
  | postAuthRedirectFail
  | timeoutFail
deriving DecidableEq

/-- The boolean `loginGT` returns for each outcome. -/
def loginReturns : LoginOutcome → Bool
  | LoginOutcome.success => true
  | _ => false

/-- Whether the outcome sets the global `RESTART_REQUESTED` flag. -/
def loginSetsRestart : LoginOutcome → Bool
  | LoginOutcome.fatalProxyError => true
  | LoginOutcome.postAuthRedirectFail => true
  | _ => false

structure MainResult where
  attempts : Nat
  freshBrowser : Bool
  ok : Bool
deriving DecidableEq

/-- The `for attempt in range(2)` retry loop of `main`, restricted to the
`loginGT` outcomes (`goToGTClock`/`selectGT`/`clockHoursIn` do not interact
with the retry flag): attempt 0 runs; on failure with `RESTART_REQUESTED` set
the browser is quit, a fresh cookie-less browser is started and attempt 1
runs; any other failure, or a failure on attempt 1, is returned as exit code 1
(`ok = false`). -/
def mainLoginPhase (o : Nat → LoginOutcome) : MainResult :=
  if loginReturns (o 0) then ⟨1, false, true⟩
  else if loginSetsRestart (o 0) then
    if loginReturns (o 1) then ⟨2, true, true⟩
    else ⟨2, true, false⟩
  else ⟨1, false, false⟩

end OneUSG

namespace OneUSG

theorem digitChar_isDigit {d : Nat} (h : d < 10) : (Nat.digitChar d).isDigit = true := by
  interval_cases d <;> decide

theorem digitChar_toNat {d : Nat} (h : d < 10) : (Nat.digitChar d).toNat - 48 = d := by
  interval_cases d <;> decide

theorem natDigitsAux_ne_nil (fuel n : Nat) : natDigitsAux (fuel + 1) n ≠ [] := by
  rw [natDigitsAux]
  split <;> simp

theorem natDigits_ne_nil (n : Nat) : natDigits n ≠ [] := natDigitsAux_ne_nil n n

theorem natDigitsAux_all_digits (fuel : Nat) :
    ∀ n, (natDigitsAux fuel n).all Char.isDigit = true := by
  induction fuel with
  | zero => intro n; rfl
  | succ f ih =>
    intro n
    rw [natDigitsAux]
    split
    · simp [digitChar_isDigit ‹n < 10›]
    · have h2 := digitChar_isDigit (show n % 10 < 10 from Nat.mod_lt n (by omega))
      simp [List.all_append, ih (n / 10), h2]

theorem natDigits_all_digits (n : Nat) : (natDigits n).all Char.isDigit = true :=
  natDigitsAux_all_digits (n + 1) n

theorem digitsToNat_append (l₁ l₂ : List Char) :
    digitsToNat (l₁ ++ l₂) =
      l₂.foldl (fun n c => n * 10 + (c.toNat - 48)) (digitsToNat l₁) := by
  simp [digitsToNat, List.foldl_append]

theorem digitsToNat_natDigitsAux (fuel : Nat) :
    ∀ n, n + 1 ≤ fuel → digitsToNat (natDigitsAux fuel n) = n := by
  induction fuel with
  | zero => intro n h; omega
  | succ f ih =>
    intro n h
    rw [natDigitsAux]
    split
    · simp [digitsToNat, digitChar_toNat ‹n < 10›]
    · rename_i hge
      have hlt : n / 10 < n := Nat.div_lt_self (by omega) (by omega)
      rw [digitsToNat_append, ih (n / 10) (by omega)]
      have h2 : n % 10 < 10 := Nat.mod_lt n (by omega)
      simp only [List.foldl_cons, List.foldl_nil, digitChar_toNat h2]
      omega

theorem digitsToNat_natDigits (n : Nat) : digitsToNat (natDigits n) = n :=
  digitsToNat_natDigitsAux (n + 1) n (by omega)

theorem isDigit_not_whitespace {c : Char} (h : c.isDigit = true) :
    c.isWhitespace = false := by
  have h1 : c ≠ ' ' := by rintro rfl; exact absurd h (by decide)
  have h2 : c ≠ '\t' := by rintro rfl; exact absurd h (by decide)
  have h3 : c ≠ '\r' := by rintro rfl; exact absurd h (by decide)
  have h4 : c ≠ '\n' := by rintro rfl; exact absurd h (by decide)
  simp [Char.isWhitespace, h1, h2, h3, h4]

theorem dropWhile_eq_self_of_all {p : Char → Bool} {l : List Char}
    (h : ∀ c ∈ l, p c = false) : l.dropWhile p = l := by
  cases l with
  | nil => rfl
  | cons c rest =>
    rw [List.dropWhile_cons_of_neg]
    simp [h c (by simp)]

theorem stripChars_eq_self_of_no_ws {l : List Char}
    (h : ∀ c ∈ l, c.isWhitespace = false) : stripChars l = l := by
  unfold stripChars
  rw [dropWhile_eq_self_of_all h,
    dropWhile_eq_self_of_all (fun c hc => h c (List.mem_reverse.mp hc)),
    List.reverse_reverse]

theorem stripChars_eq_self_of_digits {l : List Char} (h : l.all Char.isDigit = true) :
    stripChars l = l := by
  refine stripChars_eq_self_of_no_ws fun c hc => ?_
  exact isDigit_not_whitespace (by simpa using List.all_eq_true.mp h c hc)

theorem parseDigits_natDigits (n : Nat) : parseDigits (natDigits n) = some n := by
  rw [parseDigits, if_pos ⟨natDigits_ne_nil n, natDigits_all_digits n⟩,
    digitsToNat_natDigits]

/-- Round trip: parsing the printed form of an integer recovers the integer. -/
theorem pyInt_intStr (i : Int) : pyInt (intStr i) = some i := by
  cases i with
  | ofNat m =>
    have hall := natDigits_all_digits m
    have hne := natDigits_ne_nil m
    obtain ⟨c, rest, hnd⟩ : ∃ c rest, natDigits m = c :: rest := by
      cases hh : natDigits m with
      | nil => exact absurd hh hne
      | cons c rest => exact ⟨c, rest, rfl⟩
    have hs : stripChars (natDigits m) = natDigits m :=
      stripChars_eq_self_of_digits hall
    have hcd : c.isDigit = true := by
      simpa using List.all_eq_true.mp hall c (by rw [hnd]; simp)
    have hcm : c ≠ '-' := by rintro rfl; exact absurd hcd (by decide)
    have hcp : c ≠ '+' := by rintro rfl; exact absurd hcd (by decide)
    show pyInt ⟨natDigits m⟩ = some (Int.ofNat m)
    have hsc : stripChars (String.data ⟨natDigits m⟩) = c :: rest := by
      show stripChars (natDigits m) = c :: rest
      rw [hs, hnd]
    unfold pyInt
    simp only [hsc]
    rw [if_neg hcm, if_neg hcp, ← hnd, parseDigits_natDigits]
    rfl
  | negSucc m =>
    have hs : stripChars ('-' :: natDigits (m + 1)) = '-' :: natDigits (m + 1) := by
      refine stripChars_eq_self_of_no_ws fun c hc => ?_
      rcases List.mem_cons.mp hc with h | h
      · subst h; decide
      · exact isDigit_not_whitespace
          (by simpa using List.all_eq_true.mp (natDigits_all_digits (m + 1)) c h)
    show pyInt ⟨'-' :: natDigits (m + 1)⟩ = some (Int.negSucc m)
    have hsc : stripChars (String.data ⟨'-' :: natDigits (m + 1)⟩) =
        '-' :: natDigits (m + 1) := hs
    unfold pyInt
    simp only [hsc]
    simp [parseDigits_natDigits, Int.negSucc_eq]

theorem intStr_injective : Function.Injective intStr := by
  intro a b hab
  have := pyInt_intStr a
  rw [hab, pyInt_intStr b] at this
  exact (Option.some.injEq _ _).mp this.symm

/-! ### HOTP counter theorems -/

theorem readCounter_stored_intStr (n : Int) :
    readCounter (CounterFile.stored (intStr n)) = n := by
  simp [readCounter, pyInt_intStr]

theorem get_duo_passcode_stored (hotp : Int → String) (n : Int) :
    get_duo_passcode hotp (CounterFile.stored (intStr n)) =
      (hotp n, CounterFile.stored (intStr (n + 1))) := by
  simp [get_duo_passcode, readCounter_stored_intStr]

theorem get_duo_passcode_calls_spec (hotp : Int → String) (K : Nat) :
    ∀ n : Int, get_duo_passcode_calls hotp (CounterFile.stored (intStr n)) K =
      ((List.range K).map (fun j : Nat => hotp (n + (j : Int))), CounterFile.stored (intStr (n + K))) := by
  induction K with
  | zero =>
    intro n
    simp [get_duo_passcode_calls]
  | succ k ih =>
    intro n
    have hmap : (List.range (k + 1)).map (fun j : Nat => hotp (n + (j : Int))) =
        hotp n :: (List.range k).map (fun j : Nat => hotp (n + 1 + (j : Int))) := by
      rw [List.range_succ_eq_map, List.map_cons, List.map_map]
      refine congrArg₂ List.cons (by simp) (List.map_congr_left ?_)
      intro j _
      simp only [Function.comp_apply]
      congr 1
      omega
    simp only [get_duo_passcode_calls, get_duo_passcode_stored, ih (n + 1), hmap]
    refine Prod.ext rfl ?_
    show CounterFile.stored (intStr (n + 1 + k)) = CounterFile.stored (intStr (n + (k + 1)))
    congr 2
    omega

/-- C3: with an HOTP source configured, every call reads the on-disk counter,
generates the code at that counter, and writes back counter+1; after `K` calls
with no external interference the on-disk counter equals its initial value
plus `K`, and (for an injective code function, the spec's "well-formed
incrementing secret") no two of the `K` calls return the same code. -/
theorem get_duo_passcode_counter_progress (hotp : Int → String) (n : Int) (K : Nat)
    (hinj : Function.Injective hotp) :
    readCounter (get_duo_passcode_calls hotp (CounterFile.stored (intStr n)) K).2 =
      n + K ∧
    (get_duo_passcode_calls hotp (CounterFile.stored (intStr n)) K).1 =
      (List.range K).map (fun j : Nat => hotp (n + (j : Int))) ∧
    (get_duo_passcode_calls hotp (CounterFile.stored (intStr n)) K).1.Nodup := by
  have h := get_duo_passcode_calls_spec hotp K n
  refine ⟨?_, ?_, ?_⟩
  · rw [h]
    exact readCounter_stored_intStr _
  · rw [h]
  · rw [h]
    refine List.Nodup.map ?_ (List.nodup_range K)
    intro a b hab
    have : n + (a : Int) = n + (b : Int) := hinj hab
    omega

/-- Witness for C3 at `hotp := intStr`, initial counter 5, `K = 3`. -/
theorem get_duo_passcode_counter_progress_witness :
    readCounter (get_duo_passcode_calls intStr (CounterFile.stored (intStr 5)) 3).2 =
      5 + 3 ∧
    (get_duo_passcode_calls intStr (CounterFile.stored (intStr 5)) 3).1 =
      (List.range 3).map (fun j : Nat => intStr (5 + (j : Int))) ∧
    (get_duo_passcode_calls intStr (CounterFile.stored (intStr 5)) 3).1.Nodup :=
  get_duo_passcode_counter_progress intStr 5 3 intStr_injective

/-- C9: a missing, unreadable, or unparsable counter file is silently treated
as counter 0: the code is generated at counter 0 and "1" is written back, so a
corrupted counter file makes the generator reuse counter 0 — the code issued
equals the one issued by the very first call on a fresh (missing) file. -/
theorem get_duo_passcode_corrupt_counter_reuse (hotp : Int → String) :
    get_duo_passcode hotp CounterFile.missing = (hotp 0, CounterFile.stored "1") ∧
    get_duo_passcode hotp CounterFile.unreadable = (hotp 0, CounterFile.stored "1") ∧
    get_duo_passcode hotp (CounterFile.stored "not a number") =
      (hotp 0, CounterFile.stored "1") ∧
    (get_duo_passcode hotp (CounterFile.stored "not a number")).1 =
      (get_duo_passcode hotp CounterFile.missing).1 := by
  have h1 : (pyInt "not a number").getD 0 = (0 : Int) := by decide
  have h2 : intStr (0 + 1) = "1" := by decide
  have h3 : intStr 1 = "1" := by decide
  refine ⟨?_, ?_, ?_, ?_⟩ <;>
    simp [get_duo_passcode, readCounter, h1, h2, h3]

/-! ### Element locator theorems -/

theorem find_first_go_first_success (clickable : Bool) :
    ∀ (l : List Lookup) (i : Nat) (le : Option String) (k : Nat) (hk : k < l.length),
      lookupSucceeds clickable (l.get ⟨k, hk⟩) = true →
      (∀ j (hj : j < k), lookupSucceeds clickable (l.get ⟨j, Nat.lt_trans hj hk⟩) = false) →
      find_first_go clickable l i le = Except.ok (i + k) := by
  intro l
  induction l with
  | nil => intro i le k hk; simp at hk
  | cons o rest ih =>
    intro i le k hk hsucc hprev
    cases k with
    | zero =>
      cases o with
      | found d e =>
        have hs : (!clickable || (d && e)) = true := by
          simpa [lookupSucceeds, List.get] using hsucc
        simp [find_first_go, hs]
      | raised m => simp [lookupSucceeds, List.get] at hsucc
    | succ k2 =>
      have hk2 : k2 < rest.length := by
        simpa using Nat.lt_of_succ_lt_succ hk
      have hs2 : lookupSucceeds clickable (rest.get ⟨k2, hk2⟩) = true := by
        simpa using hsucc
      have hprev2 : ∀ j (hj : j < k2),
          lookupSucceeds clickable (rest.get ⟨j, Nat.lt_trans hj hk2⟩) = false := by
        intro j hj
        have := hprev (j + 1) (Nat.succ_lt_succ hj)
        simpa using this
      have hfail : lookupSucceeds clickable o = false := by
        have := hprev 0 (Nat.succ_pos k2)
        simpa using this
      rw [show i + (k2 + 1) = (i + 1) + k2 by omega]
      cases o with
      | found d e =>
        have hf : (!clickable || (d && e)) = false := by
          simpa [lookupSucceeds] using hfail
        simp only [find_first_go, hf, Bool.false_eq_true, if_false]
        exact ih (i + 1) le k2 hk2 hs2 hprev2
      | raised m =>
        simp only [find_first_go]
        exact ih (i + 1) (some m) k2 hk2 hs2 hprev2

theorem find_first_go_all_fail (clickable : Bool) :
    ∀ (l : List Lookup) (i : Nat) (le : Option String),
      (∀ k (hk : k < l.length), lookupSucceeds clickable (l.get ⟨k, hk⟩) = false) →
      find_first_go clickable l i le =
        Except.error ((l.foldl
          (fun acc o => match o with | Lookup.raised m => some m | _ => acc) le).getD
            genericTimeoutMsg) := by
  intro l
  induction l with
  | nil => intro i le hall; rfl
  | cons o rest ih =>
    intro i le hall
    have hfail : lookupSucceeds clickable o = false := by
      have := hall 0 (Nat.succ_pos _)
      simpa using this
    have hrest : ∀ k (hk : k < rest.length),
        lookupSucceeds clickable (rest.get ⟨k, hk⟩) = false := by
      intro k hk
      have := hall (k + 1) (Nat.succ_lt_succ hk)
      simpa using this
    cases o with
    | found d e =>
      have hf : (!clickable || (d && e)) = false := by
        simpa [lookupSucceeds] using hfail
      simp only [find_first_go, hf, Bool.false_eq_true, if_false, List.foldl_cons]
      exact ih (i + 1) le hrest
    | raised m =>
      simp only [find_first_go, List.foldl_cons]
      exact ih (i + 1) (some m) hrest

theorem lastRaised_foldl_of_no_raised :
    ∀ (l : List Lookup) (le : Option String),
      (∀ o ∈ l, ∀ m, o ≠ Lookup.raised m) →
      l.foldl (fun acc o => match o with | Lookup.raised m => some m | _ => acc) le = le := by
  intro l
  induction l with
  | nil => intro le _; rfl
  | cons o rest ih =>
    intro le h
    cases o with
    | found d e =>
      simp only [List.foldl_cons]
      exact ih le (fun o ho m => h o (by simp [ho]) m)
    | raised m => exact absurd rfl (h (Lookup.raised m) (by simp) m)

/-- C4: for every non-empty locator list, `find_first` tries the candidates in
declaration order and returns the first candidate that succeeds (element found
and, when `clickable` is requested, also displayed and enabled); if no
candidate ever succeeds it raises the last recorded lookup error, or the
generic timeout if none was recorded. -/
theorem find_first_contract (l : List Lookup) (clickable : Bool) (hne : l ≠ []) :
    (∀ k (hk : k < l.length),
      lookupSucceeds clickable (l.get ⟨k, hk⟩) = true →
      (∀ j (hj : j < k), lookupSucceeds clickable (l.get ⟨j, Nat.lt_trans hj hk⟩) = false) →
      find_first l clickable = Except.ok k) ∧
    ((∀ k (hk : k < l.length), lookupSucceeds clickable (l.get ⟨k, hk⟩) = false) →
      find_first l clickable =
        Except.error ((lastRaisedMsg l).getD genericTimeoutMsg)) := by
  constructor
  · intro k hk hsucc hprev
    have := find_first_go_first_success clickable l 0 none k hk hsucc hprev
    simpa [find_first] using this
  · intro hall
    exact find_first_go_all_fail clickable l 0 none hall

/-- Witness for C4: with `clickable = true`, a raised candidate followed by an
interactable one returns index 1; when the found candidate is not enabled, the
last recorded error (from the raised candidate) is surfaced. -/
theorem find_first_contract_witness :
    find_first [Lookup.raised "a", Lookup.found true true] true = Except.ok 1 ∧
    find_first [Lookup.raised "a", Lookup.found true false] true =
      Except.error "a" := by
  have h1 := find_first_contract [Lookup.raised "a", Lookup.found true true] true
    (by decide)
  have h2 := find_first_contract [Lookup.raised "a", Lookup.found true false] true
    (by decide)
  constructor
  · refine h1.1 1 (by decide) rfl ?_
    intro j hj
    have hj0 : j = 0 := by omega
    subst hj0
    rfl
  · refine h2.2 ?_
    intro k hk
    rcases k with _ | _ | k
    · rfl
    · rfl
    · exfalso
      simp only [List.length_cons, List.length_nil] at hk
      omega

/-- C10: with `clickable = true`, a candidate whose element is located but is
not displayed-and-enabled is skipped without updating the recorded last error;
consequently, when every candidate's element is located but none is displayed
and enabled, the raised failure is the generic "Timed out finding element"
timeout, identifying no candidate. -/
theorem find_first_clickable_skips_silently :
    (∀ (d e : Bool) (rest : List Lookup) (i : Nat) (le : Option String),
      (d && e) = false →
      find_first_go true (Lookup.found d e :: rest) i le =
        find_first_go true rest (i + 1) le) ∧
    (∀ l : List Lookup,
      (∀ k (hk : k < l.length), isFoundNotInteractable (l.get ⟨k, hk⟩) = true) →
      find_first l true = Except.error genericTimeoutMsg) := by
  constructor
  · intro d e rest i le hde
    simp [find_first_go, hde]
  · intro l hall
    have hfail : ∀ k (hk : k < l.length), lookupSucceeds true (l.get ⟨k, hk⟩) = false := by
      intro k hk
      have h := hall k hk
      cases hg : l.get ⟨k, hk⟩ with
      | found d e =>
        rw [hg] at h
        simp only [isFoundNotInteractable, Bool.not_eq_true', Bool.not_eq_eq_eq_not] at h
        have hde : (d && e) = false := by simpa [isFoundNotInteractable] using h
        simp [lookupSucceeds, hde]
      | raised m =>
        rw [hg] at h
        simp [isFoundNotInteractable] at h
    have hnor : ∀ o ∈ l, ∀ m, o ≠ Lookup.raised m := by
      intro o ho m heq
      obtain ⟨n, hget⟩ := List.mem_iff_get.mp ho
      have h := hall n.1 n.2
      rw [show (⟨n.1, n.2⟩ : Fin l.length) = n from rfl, hget, heq] at h
      simp [isFoundNotInteractable] at h
    have := find_first_go_all_fail true l 0 none hfail
    rw [lastRaised_foldl_of_no_raised l none hnor] at this
    exact this

/-- Witness for C10 at a two-candidate list where both elements are located but
neither is displayed-and-enabled. -/
theorem find_first_clickable_skips_silently_witness :
    find_first_go true [Lookup.found true false] 0 (some "kept") =
      find_first_go true [] 1 (some "kept") ∧
    find_first [Lookup.found true false, Lookup.found false true] true =
      Except.error genericTimeoutMsg := by
  constructor
  · exact find_first_clickable_skips_silently.1 true false [] 0 (some "kept") (by decide)
  · refine find_first_clickable_skips_silently.2
      [Lookup.found true false, Lookup.found false true] ?_
    intro k hk
    rcases k with _ | _ | k
    · rfl
    · rfl
    · exfalso
      simp only [List.length_cons, List.length_nil] at hk
      omega

/-! ### Device-trust prompt theorems -/

theorem tryClickLoop_none_all_false (label : Bool) :
    ∀ (l : List Bool) (start : Nat), (tryClickLoop label l start).1 = none →
      ∀ b ∈ l, b = false := by
  intro l
  induction l with
  | nil =>
    intro start _ b hb
    simp at hb
  | cons b rest ih =>
    intro start h c hc
    rw [tryClickLoop] at h
    by_cases hb : b = true
    · rw [if_pos hb] at h
      simp at h
    · rw [if_neg hb] at h
      have hb2 : b = false := by revert hb; cases b <;> simp
      rcases List.mem_cons.mp hc with rfl | hc2
      · exact hb2
      · exact ih (start + 1) (by simpa using h) c hc2

theorem tryClickLoop_trace_label (label : Bool) :
    ∀ (l : List Bool) (start : Nat) (p : Bool × Nat),
      p ∈ (tryClickLoop label l start).2 → p.1 = label := by
  intro l
  induction l with
  | nil =>
    intro start p hp
    simp [tryClickLoop] at hp
  | cons b rest ih =>
    intro start p hp
    rw [tryClickLoop] at hp
    by_cases hb : b = true
    · rw [if_pos hb] at hp
      simp at hp
      rw [hp]
    · rw [if_neg hb] at hp
      simp at hp
      rcases hp with rfl | hp2
      · rfl
      · exact ih (start + 1) p hp2

theorem tryClickLoop_none_trace (label : Bool) :
    ∀ (l : List Bool) (start : Nat), (tryClickLoop label l start).1 = none →
      (tryClickLoop label l start).2 =
        (List.range l.length).map (fun k => (label, start + k)) := by
  intro l
  induction l with
  | nil =>
    intro start _
    rfl
  | cons b rest ih =>
    intro start h
    rw [tryClickLoop] at h ⊢
    by_cases hb : b = true
    · rw [if_pos hb] at h
      simp at h
    · rw [if_neg hb] at h ⊢
      have h2 : (tryClickLoop label rest (start + 1)).1 = none := by simpa using h
      simp only [List.length_cons, List.range_succ_eq_map, List.map_cons, List.map_map]
      refine congrArg₂ List.cons (by simp) ?_
      rw [show (tryClickLoop label rest (start + 1)).2 =
        (List.range rest.length).map (fun k => (label, start + 1 + k)) from ih (start + 1) h2]
      refine List.map_congr_left ?_
      intro k _
      simp only [Function.comp_apply]
      refine congrArg₂ Prod.mk rfl ?_
      omega

theorem trace_entry_label (label : Bool) (l : List Bool) (start p : Nat)
    (x : Bool × Nat) (h : (tryClickLoop label l start).2[p]? = some x) :
    x.1 = label := by
  obtain ⟨hlt, he⟩ := List.getElem?_eq_some_iff.mp h
  exact tryClickLoop_trace_label label l start x (he ▸ List.getElem_mem hlt)

theorem handle_trust_no_clicked (no yes : List Bool) (i : Nat) (t : List (Bool × Nat))
    (h : tryClickLoop true no 0 = (some i, t)) :
    handle_duo_device_trust_prompt true no yes = (some (true, i), t) := by
  unfold handle_duo_device_trust_prompt
  rw [if_neg (by decide), h]

theorem handle_trust_yes_clicked (no yes : List Bool) (tNo : List (Bool × Nat))
    (j : Nat) (tYes : List (Bool × Nat))
    (hno : tryClickLoop true no 0 = (none, tNo))
    (hyes : tryClickLoop false yes 0 = (some j, tYes)) :
    handle_duo_device_trust_prompt true no yes = (some (false, j), tNo ++ tYes) := by
  unfold handle_duo_device_trust_prompt
  rw [if_neg (by decide), hno, hyes]

theorem handle_trust_none_clicked (no yes : List Bool) (tNo tYes : List (Bool × Nat))
    (hno : tryClickLoop true no 0 = (none, tNo))
    (hyes : tryClickLoop false yes 0 = (none, tYes)) :
    handle_duo_device_trust_prompt true no yes = (none, tNo ++ tYes) := by
  unfold handle_duo_device_trust_prompt
  rw [if_neg (by decide), hno, hyes]

/-- C7: on detecting the device-trust page, the handler attempts every
decline ('No') control before any accept ('Yes') control — an accept attempt
can only sit at a trace position at or past `no.length`, and positions
`0..no.length-1` hold exactly the decline attempts in order — and an accept
control is clicked only when no decline control could be clicked. -/
theorem device_trust_prefers_decline (no yes : List Bool) :
    (∀ j, (handle_duo_device_trust_prompt true no yes).1 = some (false, j) →
      ∀ b ∈ no, b = false) ∧
    (∀ p pr, (handle_duo_device_trust_prompt true no yes).2[p]? = some (false, pr) →
      no.length ≤ p ∧
      ∀ k, k < no.length →
        (handle_duo_device_trust_prompt true no yes).2[k]? = some (true, k)) := by
  cases hno : tryClickLoop true no 0 with
  | mk rno tno =>
    cases rno with
    | some i =>
      rw [handle_trust_no_clicked no yes i tno hno]
      constructor
      · intro j hj
        simp at hj
      · intro p pr hacc
        exfalso
        have := trace_entry_label true no 0 p (false, pr) (by rw [hno]; exact hacc)
        simp at this
    | none =>
      have hall : ∀ b ∈ no, b = false :=
        tryClickLoop_none_all_false true no 0 (by rw [hno])
      have htr : tno = (List.range no.length).map (fun k => (true, 0 + k)) := by
        have h := tryClickLoop_none_trace true no 0 (by rw [hno])
        rw [hno] at h
        exact h
      have htno_len : tno.length = no.length := by rw [htr]; simp
      have hmain : ∀ (tyes : List (Bool × Nat)) (p pr : Nat),
          (tno ++ tyes)[p]? = some (false, pr) →
          no.length ≤ p ∧ ∀ k, k < no.length →
            (tno ++ tyes)[k]? = some (true, k) := by
        intro tyes p pr hacc
        have hple : tno.length ≤ p := by
          by_contra hlt
          push_neg at hlt
          rw [List.getElem?_append_left hlt] at hacc
          have := trace_entry_label true no 0 p (false, pr)
            (by rw [hno]; exact hacc)
          simp at this
        refine ⟨by omega, ?_⟩
        intro k hk
        have hkt : k < tno.length := by omega
        rw [List.getElem?_append_left hkt, htr, List.getElem?_map,
          List.getElem?_range (by omega)]
        simp
      cases hyes : tryClickLoop false yes 0 with
      | mk ryes tyes =>
        cases ryes with
        | some j =>
          rw [handle_trust_yes_clicked no yes tno j tyes hno hyes]
          exact ⟨fun j2 _ => hall, fun p pr hacc => hmain tyes p pr hacc⟩
        | none =>
          rw [handle_trust_none_clicked no yes tno tyes hno hyes]
          refine ⟨fun j2 hj2 => ?_, fun p pr hacc => hmain tyes p pr hacc⟩
          simp at hj2

/-- Witness for C7: two unclickable 'No' candidates and one clickable 'Yes':
the accept is clicked only because no decline was clickable, and the first two
trace entries are the two decline attempts in order. -/
theorem device_trust_prefers_decline_witness :
    (∀ b ∈ [false, false], b = false) ∧
    (([false, false] : List Bool).length ≤ 2 ∧
      ∀ k, k < ([false, false] : List Bool).length →
        (handle_duo_device_trust_prompt true [false, false] [true]).2[k]? =
          some (true, k)) := by
  have h := device_trust_prefers_decline [false, false] [true]
  exact ⟨h.1 0 (by decide), h.2 2 0 (by decide)⟩

/-! ### Value injection theorems -/

theorem pyStrip_empty : pyStrip "" = "" := rfl

theorem set_input_value_keys (f : Field) (v : String) :
    set_input_value true f v = { value := v } := by
  simp [set_input_value]

theorem set_input_value_nokeys (f : Field) (v : String) :
    set_input_value false f v =
      if pyStrip v = "" then { value := "" } else { value := v } := by
  by_cases h : pyStrip v = ""
  · rw [if_pos h]
    simp [set_input_value, pyStrip_empty, h]
  · rw [if_neg h]
    simp [set_input_value, pyStrip_empty]
    intro heq
    exact absurd heq.symm h

/-- C8 counterexample: on a framework-controlled input that ignores native
keystrokes, setting the whitespace-only value " " twice leaves the field
empty rather than holding " " — the trimmed-readback comparison sees "" and
" " as equal and skips the JS fallback. -/
theorem set_input_value_not_exact_on_blank :
    (set_input_value false
      (set_input_value false { value := "x" } " ") " ").value ≠ " " := by
  decide

/-- C8 amended: calling `set_value` twice with the same value is idempotent
(the second call yields the same field as the first) and leaves the field
holding a value equal to the intended one after whitespace trimming; the field
holds exactly the intended value whenever native keystrokes stick or the value
is not whitespace-only. -/
theorem set_input_value_idempotent_trimmed (keysStick : Bool) (f : Field) (v : String) :
    pyStrip ((set_input_value keysStick (set_input_value keysStick f v) v).value) =
      pyStrip v ∧
    set_input_value keysStick (set_input_value keysStick f v) v =
      set_input_value keysStick f v ∧
    (keysStick = true →
      (set_input_value keysStick (set_input_value keysStick f v) v).value = v) ∧
    (pyStrip v ≠ "" →
      (set_input_value keysStick (set_input_value keysStick f v) v).value = v) := by
  cases keysStick with
  | true =>
    have hk : ∀ g : Field, set_input_value true g v = { value := v } :=
      fun g => set_input_value_keys g v
    refine ⟨?_, ?_, fun _ => ?_, fun _ => ?_⟩ <;> simp [hk]
  | false =>
    have hk : ∀ g : Field, set_input_value false g v =
        if pyStrip v = "" then { value := "" } else { value := v } :=
      fun g => set_input_value_nokeys g v
    by_cases h : pyStrip v = ""
    · refine ⟨?_, ?_, fun hc => ?_, fun hc => ?_⟩
      · simp only [hk, if_pos h]
        rw [pyStrip_empty, h]
      · simp only [hk]
      · exact absurd hc (by decide)
      · exact absurd h hc
    · refine ⟨?_, ?_, fun hc => ?_, fun _ => ?_⟩
      · simp only [hk, if_neg h]
      · simp only [hk]
      · exact absurd hc (by decide)
      · simp only [hk, if_neg h]

/-- Witness for C8 (amended) at `keysStick = false`, a non-blank value. -/
theorem set_input_value_idempotent_trimmed_witness :
    pyStrip ((set_input_value false
      (set_input_value false { value := "x" } "123456") "123456").value) =
      pyStrip "123456" ∧
    set_input_value false (set_input_value false { value := "x" } "123456") "123456" =
      set_input_value false { value := "x" } "123456" ∧
    (set_input_value false
      (set_input_value false { value := "x" } "123456") "123456").value = "123456" := by
  have h := set_input_value_idempotent_trimmed false { value := "x" } "123456"
  exact ⟨h.1, h.2.1, h.2.2.2 (by decide)⟩

/-! ### MFA negotiation loop theorems -/

theorem loginLoopAux_stuck (fatal onClock : Nat → Bool) (u : String) (timeout : Nat)
    (hf : ∀ i, fatal i = false) (hc : ∀ i, onClock i = false) :
    ∀ (d : Nat) (fuel : Nat) (s : LoopState), s.lastUrl = u → s.stuckCount + d = 10 →
      1 ≤ d → d ≤ fuel → s.elapsed + 2 * (d - 1) < timeout →
      loginLoopAux fatal onClock (fun _ => u) timeout fuel s =
        ⟨LoopExit.stuckFailure, s.elapsed + 2 * (d - 1), s.iteration + d,
          s.handlers + d⟩ := by
  intro d
  induction d with
  | zero =>
    intro fuel s _ _ h1
    omega
  | succ k ih =>
    intro fuel s hurl hsum _ hfuel helapsed
    cases fuel with
    | zero => omega
    | succ f =>
      rw [loginLoopAux, if_pos (show s.elapsed < timeout by omega)]
      simp only [hf, hc, Bool.false_eq_true, if_false, hurl, eq_self_iff_true, if_true]
      by_cases hk : k = 0
      · subst hk
        rw [if_pos (by omega)]
        simp [LoopResult.mk.injEq] <;> omega
      · rw [if_neg (by omega)]
        rw [ih f ⟨s.elapsed + 2, s.iteration + 1, u, s.stuckCount + 1,
            s.handlers + 1⟩ rfl (show s.stuckCount + 1 + k = 10 by omega) (by omega)
            (by omega) (show s.elapsed + 2 + 2 * (k - 1) < timeout by omega)]
        simp [LoopResult.mk.injEq] <;> omega

/-- C2: if the browser URL never changes across consecutive ticks (and neither
the fatal-proxy page nor the clock page ever appears), the negotiation loop
aborts with the stuck-state failure after at most
`MAX_STUCK_ITERATIONS * 2 = 20` seconds of tick sleeps, instead of waiting out
the default 120-second wall-clock budget. -/
theorem loginGT_stuck_fail_fast (fatal onClock : Nat → Bool) (u : String)
    (hf : ∀ i, fatal i = false) (hc : ∀ i, onClock i = false) :
    (loginLoop fatal onClock (fun _ => u) 120).exit = LoopExit.stuckFailure ∧
    (loginLoop fatal onClock (fun _ => u) 120).elapsed ≤ 20 := by
  rw [loginLoop]
  by_cases hu : u = ""
  · subst hu
    rw [loginLoopAux_stuck fatal onClock "" 120 hf hc 10 (120 + 1) ⟨0, 0, "", 0, 0⟩
      rfl (show (0 : Nat) + 10 = 10 by omega) (by omega) (by omega)
      (show (0 : Nat) + 2 * (10 - 1) < 120 by omega)]
    exact ⟨rfl, show (0 : Nat) + 2 * (10 - 1) ≤ 20 by omega⟩
  · have hstep : loginLoopAux fatal onClock (fun _ => u) 120 (120 + 1) ⟨0, 0, "", 0, 0⟩ =
        loginLoopAux fatal onClock (fun _ => u) 120 120 ⟨2, 1, u, 0, 1⟩ := by
      rw [loginLoopAux]
      simp [hf, hc, hu]
    rw [hstep, loginLoopAux_stuck fatal onClock u 120 hf hc 10 120 ⟨2, 1, u, 0, 1⟩
      rfl (show (0 : Nat) + 10 = 10 by omega) (by omega) (by omega)
      (show (2 : Nat) + 2 * (10 - 1) < 120 by omega)]
    exact ⟨rfl, show (2 : Nat) + 2 * (10 - 1) ≤ 20 by omega⟩

/-- Witness for C2 at a constant non-empty URL. -/
theorem loginGT_stuck_fail_fast_witness :
    (loginLoop (fun _ => false) (fun _ => false) (fun _ => "u") 120).exit =
      LoopExit.stuckFailure ∧
    (loginLoop (fun _ => false) (fun _ => false) (fun _ => "u") 120).elapsed ≤ 20 :=
  loginGT_stuck_fail_fast (fun _ => false) (fun _ => false) "u"
    (fun _ => rfl) (fun _ => rfl)

theorem loginLoopAux_auth_handlers (fatal onClock : Nat → Bool) (url : Nat → String)
    (timeout : Nat) :
    ∀ (fuel : Nat) (s : LoopState),
      (loginLoopAux fatal onClock url timeout fuel s).exit = LoopExit.authenticated →
      (loginLoopAux fatal onClock url timeout fuel s).handlers + s.iteration + 1 =
        s.handlers + (loginLoopAux fatal onClock url timeout fuel s).iteration := by
  intro fuel
  induction fuel with
  | zero =>
    intro s h
    simp [loginLoopAux] at h
  | succ f ih =>
    intro s h
    rw [loginLoopAux] at h ⊢
    by_cases hg : s.elapsed < timeout
    · rw [if_pos hg] at h ⊢
      by_cases hfat : fatal (s.iteration + 1) = true
      · rw [if_pos hfat] at h ⊢
        simp at h
      · rw [if_neg hfat] at h ⊢
        by_cases honc : onClock (s.iteration + 1) = true
        · rw [if_pos honc] at h ⊢
          dsimp only
          omega
        · rw [if_neg honc] at h ⊢
          by_cases hcur : url (s.iteration + 1) = s.lastUrl
          · rw [if_pos hcur] at h ⊢
            by_cases hstk : 10 ≤ s.stuckCount + 1
            · rw [if_pos hstk] at h ⊢
              simp at h
            · rw [if_neg hstk] at h ⊢
              have hrec := ih ⟨s.elapsed + 2, s.iteration + 1, s.lastUrl,
                s.stuckCount + 1, s.handlers + 1⟩ h
              dsimp only at hrec
              omega
          · rw [if_neg hcur] at h ⊢
            have hrec := ih ⟨s.elapsed + 2, s.iteration + 1, url (s.iteration + 1),
              0, s.handlers + 1⟩ h
            dsimp only at hrec
            omega
    · rw [if_neg hg] at h ⊢
      simp at h

/-- C6: on every tick the fatal-proxy check is evaluated before the success
check, and the success check before the handlers: (1) whenever the loop exits
authenticated, the number of handler invocations is one less than the exit
tick — no handlers ran on the success tick; (2) if the fatal page is present
on tick 1 the loop exits restart-requested immediately, with zero handler
invocations and zero wait, even if the clock page is also detected; (3) if the
clock page is detected on tick 1 and the fatal page is absent, the loop exits
authenticated immediately with zero handler invocations. -/
theorem loginGT_check_order (fatal onClock : Nat → Bool) (url : Nat → String)
    (timeout : Nat) :
    ((loginLoop fatal onClock url timeout).exit = LoopExit.authenticated →
      (loginLoop fatal onClock url timeout).handlers + 1 =
        (loginLoop fatal onClock url timeout).iteration) ∧
    (0 < timeout → fatal 1 = true →
      loginLoop fatal onClock url timeout = ⟨LoopExit.restartRequested, 0, 1, 0⟩) ∧
    (0 < timeout → fatal 1 = false → onClock 1 = true →
      loginLoop fatal onClock url timeout = ⟨LoopExit.authenticated, 0, 1, 0⟩) := by
  refine ⟨?_, ?_, ?_⟩
  · intro h
    rw [loginLoop] at h ⊢
    have hrec := loginLoopAux_auth_handlers fatal onClock url timeout (timeout + 1)
      ⟨0, 0, "", 0, 0⟩ h
    dsimp only at hrec
    omega
  · intro ht hfat
    rw [loginLoop, loginLoopAux]
    simp [ht, hfat]
  · intro ht hfat honc
    rw [loginLoop, loginLoopAux]
    simp [ht, hfat, honc]

/-- Witness for C6: success-page trace (parts 1 and 3) and fatal-page trace
(part 2) at timeout 120. -/
theorem loginGT_check_order_witness :
    ((loginLoop (fun _ => false) (fun _ => true) (fun _ => "u") 120).handlers + 1 =
      (loginLoop (fun _ => false) (fun _ => true) (fun _ => "u") 120).iteration) ∧
    (loginLoop (fun _ => true) (fun _ => true) (fun _ => "u") 120 =
      ⟨LoopExit.restartRequested, 0, 1, 0⟩) ∧
    (loginLoop (fun _ => false) (fun _ => true) (fun _ => "u") 120 =
      ⟨LoopExit.authenticated, 0, 1, 0⟩) := by
  have h1 := loginGT_check_order (fun _ => false) (fun _ => true) (fun _ => "u") 120
  have h2 := loginGT_check_order (fun _ => true) (fun _ => true) (fun _ => "u") 120
  refine ⟨h1.1 ?_, h2.2.1 (by omega) rfl, h1.2.2 (by omega) rfl rfl⟩
  rw [h1.2.2 (by omega) rfl rfl]

/-! ### Frame probing theorems -/

theorem probeFrames_preserves_top :
    ∀ (outcomes : List FrameOutcome) (i : Nat),
      (probeFrames outcomes i DriverCtx.top).2 = DriverCtx.top := by
  intro outcomes
  induction outcomes with
  | nil =>
    intro i
    rfl
  | cons o rest ih =>
    intro i
    rw [probeFrames]
    cases o <;>
      simp only [frameIter, frameTryBody, switchToDefault, switchToFrame] <;>
      first
        | rfl
        | exact ih (i + 1)

/-- C5: after the iframe loop of `try_duo_other_options` probes any frame —
heuristic skip, exception before the switch, inner handler success, no action,
or an exception inside the frame — the `finally` clause has restored the
driver context to the top-level document before control returns, so
subsequent locator calls resolve against the top-level document. -/
theorem try_duo_other_options_restores_top (outcomes : List FrameOutcome) (i : Nat)
    (ctx : DriverCtx) (hne : outcomes ≠ []) :
    (probeFrames outcomes i ctx).2 = DriverCtx.top := by
  cases outcomes with
  | nil => exact absurd rfl hne
  | cons o rest =>
    rw [probeFrames]
    cases o <;>
      simp only [frameIter, frameTryBody, switchToDefault, switchToFrame] <;>
      first
        | rfl
        | exact probeFrames_preserves_top rest (i + 1)

/-- Witness for C5: an exception inside the first probed frame still leaves
the context at the top-level document. -/
theorem try_duo_other_options_restores_top_witness :
    (probeFrames [FrameOutcome.raisedInFrame, FrameOutcome.acted] 0
      (DriverCtx.inFrame 5)).2 = DriverCtx.top :=
  try_duo_other_options_restores_top [FrameOutcome.raisedInFrame, FrameOutcome.acted]
    0 (DriverCtx.inFrame 5) (by simp)

/-! ### Top-level retry policy theorems -/

/-- C1 counterexample: `main` also retries with a fresh browser when the
restart flag was raised by the failed post-authentication direct-navigation
fallback, not only on the idpproxy HTTP 400 signature — a first attempt
ending in `postAuthRedirectFail` is retried (two attempts run, fresh
browser), refuting the "if and only if the fatal-proxy-error condition
triggered a restart request" direction of the claim. -/
theorem main_retry_on_post_auth_failure :
    (mainLoginPhase (fun _ => LoginOutcome.postAuthRedirectFail)).attempts = 2 ∧
    (mainLoginPhase (fun _ => LoginOutcome.postAuthRedirectFail)).freshBrowser = true ∧
    LoginOutcome.postAuthRedirectFail ≠ LoginOutcome.fatalProxyError := by
  decide

/-- C1 amended: the login sequence is retried at most once, with a fresh
cookie-less browser, if and only if the first attempt failed with the
`RESTART_REQUESTED` flag set — which `loginGT` sets both on the idpproxy
HTTP 400 signature and on the failed post-auth direct-navigation fallback; a
second failure of any kind is surfaced to the caller as a hard failure. -/
theorem main_retry_policy (o : Nat → LoginOutcome) :
    (mainLoginPhase o).attempts ≤ 2 ∧
    ((mainLoginPhase o).attempts = 2 ↔
      loginReturns (o 0) = false ∧ loginSetsRestart (o 0) = true) ∧
    ((mainLoginPhase o).freshBrowser = true ↔ (mainLoginPhase o).attempts = 2) ∧
    ((mainLoginPhase o).attempts = 2 → loginReturns (o 1) = false →
      (mainLoginPhase o).ok = false) := by
  unfold mainLoginPhase
  cases ho : o 0 <;> cases h1 : o 1 <;>
    simp [loginReturns, loginSetsRestart]

/-- Witness for C1 (amended): a first-attempt idpproxy 400 leads to exactly
one retry on a fresh browser, and a second fatal failure yields exit code 1. -/
theorem main_retry_policy_witness :
    (mainLoginPhase (fun _ => LoginOutcome.fatalProxyError)).attempts = 2 ∧
    (mainLoginPhase (fun _ => LoginOutcome.fatalProxyError)).freshBrowser = true ∧
    (mainLoginPhase (fun _ => LoginOutcome.fatalProxyError)).ok = false := by
  have h := main_retry_policy (fun _ => LoginOutcome.fatalProxyError)
  have h2 : (mainLoginPhase (fun _ => LoginOutcome.fatalProxyError)).attempts = 2 :=
    h.2.1.mpr ⟨rfl, rfl⟩
  exact ⟨h2, h.2.2.1.mpr h2, h.2.2.2 h2 rfl⟩

end OneUSG